import Mathlib

/-!
Verification of the panda-34/duckdb geometry-extension sources against their
natural-language specification.  Each section embeds, as executable Lean
definitions, the part of the C/C++ source a claim is about, and the theorems
at the end of the file settle the claims.

Embedded sources:
* `src/extension/datadocs/geo/third_party/geos/operation/overlay/OverlayOp.cpp`
* `src/extension/datadocs/geo/third_party/geos/operation/overlayng/MaximalEdgeRing.cpp`
* `src/extension/datadocs/geo/postgis/geography_measurement_trees.cpp`
* `src/extension/datadocs/geo/postgis/lwgeom_inout.cpp`
* `src/extension/datadocs/file_reader.cpp`
-/

namespace GeoVerify

/-! ### geos::geom basic enums

`Location` mirrors `geos::geom::Location` (the header is not vendored in this
repository; the four values are the standard GEOS ones and only
`INTERIOR`/`BOUNDARY` comparisons occur in the embedded code). -/

inductive Location where
  | NONE
  | INTERIOR
  | BOUNDARY
  | EXTERIOR
deriving DecidableEq

/-- The `OverlayOp::OpCode` enumerators.  Opcodes are embedded as `Int` so
that the behaviour of `isResultOfOp` on values outside the four enumerators
(the C `switch` falls through to `return false`) is representable. -/
def opINTERSECTION : Int := 1

def opUNION : Int := 2

def opDIFFERENCE : Int := 3

def opSYMDIFFERENCE : Int := 4

/-- The two statements at the start of `OverlayOp::isResultOfOp`
(`if (loc == Location::BOUNDARY) loc = Location::INTERIOR;`). -/
def locNorm (l : Location) : Location :=
  if l = Location.BOUNDARY then Location.INTERIOR else l

/-- `OverlayOp::isResultOfOp(Location, Location, OpCode)`
(OverlayOp.cpp lines 803-822).  The `switch` on the opcode is embedded as an
`if` chain; an opcode outside the four enumerators reaches the final
`return false`. -/
def isResultOfOp (loc0 loc1 : Location) (opCode : Int) : Bool :=
  let l0 := locNorm loc0
  let l1 := locNorm loc1
  if opCode = opINTERSECTION then
    l0 = Location.INTERIOR && l1 = Location.INTERIOR
  else if opCode = opUNION then
    l0 = Location.INTERIOR || l1 = Location.INTERIOR
  else if opCode = opDIFFERENCE then
    l0 = Location.INTERIOR && l1 ≠ Location.INTERIOR
  else if opCode = opSYMDIFFERENCE then
    (l0 = Location.INTERIOR && l1 ≠ Location.INTERIOR) ||
      (l0 ≠ Location.INTERIOR && l1 = Location.INTERIOR)
  else
    false

/-! ### Dimensions and empty results

`Dimension::DimensionType` values (`Dimension.hpp` is not vendored; the
numeric values are the standard GEOS ones, and the `std::min`/`std::max`
calls in `resultDimension` operate on them as integers). -/

def dimFalse : Int := -1

def dimP : Int := 0

def dimL : Int := 1

def dimA : Int := 2

/-- `OverlayOp::resultDimension` (OverlayOp.cpp lines 88-109).  A geometry is
abstracted by the integer its `getDimension()` returns.  The local variable
`resultDimension` is initialised to `Dimension::False`, so an opcode outside
the four enumerators yields `dimFalse`. -/
def resultDimension (overlayOpCode : Int) (dim0 dim1 : Int) : Int :=
  if overlayOpCode = opINTERSECTION then min dim0 dim1
  else if overlayOpCode = opUNION then max dim0 dim1
  else if overlayOpCode = opDIFFERENCE then dim0
  else if overlayOpCode = opSYMDIFFERENCE then max dim0 dim1
  else dimFalse

/-- The four kinds of empty geometry `OverlayOp::createEmptyResult` can ask
the factory for. -/
inductive EmptyKind where
  | point
  | lineString
  | polygon
  | geometryCollection
deriving DecidableEq

/-- `OverlayOp::createEmptyResult` (OverlayOp.cpp lines 111-129): a `switch`
on `resultDimension(overlayOpCode, a, b)` choosing which empty geometry the
factory creates. -/
def createEmptyResult (overlayOpCode : Int) (dim0 dim1 : Int) : EmptyKind :=
  let d := resultDimension overlayOpCode dim0 dim1
  if d = dimP then EmptyKind.point
  else if d = dimL then EmptyKind.lineString
  else if d = dimA then EmptyKind.polygon
  else EmptyKind.geometryCollection

/-- Modelled from the spec: the dimension of each empty geometry kind that
`createEmptyResult` can produce.  The geometry class implementations and
`Dimension.hpp` are not vendored under `src/`; the values are the standard
GEOS ones (an empty `Point` still has dimension `P`, an empty
`GeometryCollection` has dimension `Dimension::False`). -/
def emptyGeomDim : EmptyKind → Int
  | EmptyKind.point => dimP
  | EmptyKind.lineString => dimL
  | EmptyKind.polygon => dimA
  | EmptyKind.geometryCollection => dimFalse

/-! ### `OverlayOp::computeGeometry`

The three result-component lists hold distinct C++ types (`Point*`,
`LineString*`, `Polygon*`) that are upcast to `Geometry*` when inserted into
the combined list; the upcasts are embedded as the `Sum` injections. -/

/-- Kind of a component geometry of an overlay result. -/
inductive PLAKind where
  | pointK
  | lineK
  | polyK
deriving DecidableEq

/-- The kind of an upcast component geometry. -/
def kindOf {P L A : Type} : P ⊕ (L ⊕ A) → PLAKind
  | Sum.inl _ => PLAKind.pointK
  | Sum.inr (Sum.inl _) => PLAKind.lineK
  | Sum.inr (Sum.inr _) => PLAKind.polyK

/-- Result of `OverlayOp::computeGeometry`: either the empty geometry from
`createEmptyResult`, or the geometry the factory builds from the combined
component list. -/
inductive OverlayResult (G : Type) where
  | emptyRes (k : EmptyKind)
  | built (gs : List G)
deriving DecidableEq

/-- `OverlayOp::computeGeometry` (OverlayOp.cpp lines 621-643): concatenate
the point, line and polygon result lists in that order; if the combined list
is empty return `createEmptyResult` for the two input geometries (abstracted
by their dimensions), otherwise build a geometry from the list. -/
def computeGeometry {P L A : Type} (nResultPointList : List P)
    (nResultLineList : List L) (nResultPolyList : List A)
    (opCode dim0 dim1 : Int) : OverlayResult (P ⊕ (L ⊕ A)) :=
  let geomList : List (P ⊕ (L ⊕ A)) :=
    nResultPointList.map Sum.inl ++
      nResultLineList.map (fun l => Sum.inr (Sum.inl l)) ++
      nResultPolyList.map (fun a => Sum.inr (Sum.inr a))
  if geomList.isEmpty then OverlayResult.emptyRes (createEmptyResult opCode dim0 dim1)
  else OverlayResult.built geomList

/-! ### The edge-noding validation step of `OverlayOp::computeOverlay`

OverlayOp.cpp lines 242-270: after the noded split edges have been inserted
and collapsed edges replaced, `EdgeNodingValidator::checkValid` runs on
`edgeList.getEdges()`.  The validator (not vendored under `src/`) either
returns normally or throws a `TopologyException`; it is abstracted as an
`Except`-valued parameter, as is the remainder of the pipeline that builds
the result geometry from the edge list. -/

/-- The validation step of `OverlayOp::computeOverlay`: on a validation
exception the edge list is cleared (`edgeList.clearList()`) and the same
exception is re-thrown; otherwise the rest of the pipeline consumes the edge
list and produces the result geometry.  The returned pair is (overall
outcome, final contents of `edgeList`). -/
def computeOverlayValidation {E X R : Type} (checkValid : List E → Except X Unit)
    (buildRest : List E → R) (edgeList : List E) : Except X R × List E :=
  match checkValid edgeList with
  | Except.error ex => (Except.error ex, ([] : List E))
  | Except.ok _ => (Except.ok (buildRest edgeList), edgeList)

/-! ### `geography_tree_distance` and `CircTreePIP`
(geography_measurement_trees.cpp)

liblwgeom constants (`liblwgeom.h` is not vendored under `src/`; the values
are the standard PostGIS ones, and only their identities matter here). -/

def LW_TRUE : Int := 1

def LW_FALSE : Int := 0

def LW_SUCCESS : Int := 1

def LW_FAILURE : Int := 0

def POLYGONTYPE : Nat := 3

def MULTIPOLYGONTYPE : Nat := 6

/-- Outcomes of the geometric subroutines `CircTreePIP` calls, none of which
are vendored under `src/`: whether `gbox_contains_point3d` accepts the
candidate point, whether `gbox_pt_outside` and `circ_tree_get_point_outside`
succeed, and the `int` result of `circ_tree_contains_point`. -/
structure PIPOracles where
  gboxContains : Bool
  gboxPtOutsideOk : Bool
  circOutsideOk : Bool
  containsPoint : Int
deriving DecidableEq

/-- `CircTreePIP` (geography_measurement_trees.cpp lines 32-71).  The tree'ed
geometry is abstracted by its `gserialized_get_type` code and the oracle
outcomes of the geometric subroutines.  Returns `none` when both outside
point computations fail and `lwerror` aborts the computation; in all other
cases returns the `int` the C function returns. -/
def CircTreePIP (tree1Type : Nat) (o : PIPOracles) : Option Int :=
  if tree1Type = POLYGONTYPE ∨ tree1Type = MULTIPOLYGONTYPE then
    if ¬o.gboxContains then some LW_FALSE
    else if o.gboxPtOutsideOk then some o.containsPoint
    else if o.circOutsideOk then some o.containsPoint
    else none
  else some LW_FALSE

/-- `geography_tree_distance` (geography_measurement_trees.cpp lines 73-100).
Distances are abstracted by a type `D`: `zero` embeds the literal `0.0` and
`treeDist` the value of `circ_tree_distance_tree(circ_tree1, circ_tree2, s,
tolerance)`.  The result pairs the C return value with the value stored in
`*distance`; `none` means a `CircTreePIP` call aborted via `lwerror`.  The C
`||` is short-circuit: the second `CircTreePIP` call only runs when the
first returns zero. -/
def geography_tree_distance {D : Type} (type1 type2 : Nat) (o1 o2 : PIPOracles)
    (zero treeDist : D) : Option (Int × D) :=
  match CircTreePIP type1 o1 with
  | none => none
  | some v1 =>
    if v1 ≠ 0 then some (LW_SUCCESS, zero)
    else
      match CircTreePIP type2 o2 with
      | none => none
      | some v2 =>
        if v2 ≠ 0 then some (LW_SUCCESS, zero)
        else some (LW_SUCCESS, treeDist)

/-! ### `MaximalEdgeRing::linkResultAreaMaxRingAtNode`
(operation/overlayng/MaximalEdgeRing.cpp lines 32-80)

The function scans the out-edges of the node star in `oNext` order, starting
at `nodeEdge->oNextOE()` and ending with `nodeEdge` itself.  An out-edge is
embedded by the three flags the scan reads: whether the out-edge is in the
result area, whether its sym (the corresponding in-edge) is in the result
area, and whether that in-edge is already result-max-linked when the call
starts.  The scan-order list of these records is the model's input. -/

structure OEdge where
  outR : Bool
  inR : Bool
  inLinked : Bool
deriving DecidableEq

/-- A default `OEdge` used only for out-of-range `getD` lookups. -/
def noEdge : OEdge := ⟨false, false, false⟩

/-- How a call of `linkResultAreaMaxRingAtNode` ends: the early `return`
from the top-of-loop check, the normal return after the scan, or the
`TopologyException("no outgoing edge found")`. -/
inductive LinkOutcome where
  | earlyReturn
  | normalReturn
  | topoException
deriving DecidableEq

/-- The loop state: `state` together with the `currResultIn` pointer.
`find c` is `STATE_FIND_INCOMING` with `currResultIn = c` (the `Bool` is the
in-edge's current `isResultMaxLinked()`), `link j jl` is
`STATE_LINK_OUTGOING` with `currResultIn` the in-edge found at scan index
`j`, whose linked status is `jl`. -/
inductive LinkState where
  | find (curr : Option (Nat × Bool))
  | link (j : Nat) (jLinked : Bool)
deriving DecidableEq

/-- The `do`/`while` loop of `linkResultAreaMaxRingAtNode` over the
remaining scan list.  `i` is the scan index of the list head and `links`
accumulates the `setNextResultMax` calls as (in-edge index, out-edge index)
pairs.  Setting `nextResultMax` makes the in-edge result-max-linked, which
is what the top-of-loop check reads. -/
def linkRun : List OEdge → Nat → LinkState → List (Nat × Nat) →
    LinkOutcome × List (Nat × Nat)
  | [], _, LinkState.link _ _, links => (LinkOutcome.topoException, links)
  | [], _, LinkState.find _, links => (LinkOutcome.normalReturn, links)
  | _ :: _, _, LinkState.find (some (_, true)), links =>
    (LinkOutcome.earlyReturn, links)
  | _ :: _, _, LinkState.link _ true, links => (LinkOutcome.earlyReturn, links)
  | e :: rest, i, LinkState.find none, links =>
    if e.inR then linkRun rest (i + 1) (LinkState.link i e.inLinked) links
    else linkRun rest (i + 1) (LinkState.find none) links
  | e :: rest, i, LinkState.find (some (j, false)), links =>
    if e.inR then linkRun rest (i + 1) (LinkState.link i e.inLinked) links
    else linkRun rest (i + 1) (LinkState.find (some (j, false))) links
  | e :: rest, i, LinkState.link j false, links =>
    if e.outR then
      linkRun rest (i + 1) (LinkState.find (some (j, true))) (links ++ [(j, i)])
    else linkRun rest (i + 1) (LinkState.link j false) links

/-- `MaximalEdgeRing::linkResultAreaMaxRingAtNode` on a node star given in
scan order: outcome of the call together with the links it makes. -/
def linkResultAreaMaxRingAtNode (edges : List OEdge) :
    LinkOutcome × List (Nat × Nat) :=
  linkRun edges 0 (LinkState.find none) []

/-- Index of the first list element satisfying `p`. -/
def firstIdxBy {α : Type} (p : α → Bool) : List α → Option Nat
  | [] => none
  | x :: rest => if p x then some 0 else (firstIdxBy p rest).map (· + 1)

/-- The scan completes with `STATE_LINK_OUTGOING` still active — an incoming
result-area edge is still waiting for an outgoing edge when the loop ends:
at the first incoming result-area edge of the scan, either the edge is
already linked and sits at the last scan position (so no later top-of-loop
check can fire), or it is unlinked and no outgoing result-area edge follows
it. -/
def throwCondition : List OEdge → Bool
  | [] => false
  | e :: rest =>
    if e.inR then
      if e.inLinked then rest.isEmpty
      else (firstIdxBy (fun x => x.outR) rest).isNone
    else throwCondition rest

/-! ### `LWGEOM_in` (lwgeom_inout.cpp lines 40-117)

The input C string is embedded as a `List Char` (without the terminating
NUL).  The parsers (`lwgeom_from_wkb` composed with `bytes_from_hexbytes`,
`lwgeom_from_geojson`, `lwgeom_parse_wkt`) and the geometry operations
(`lwgeom_set_srid`, `lwgeom_needs_bbox`, `lwgeom_add_bbox`,
`geometry_serialize`) live in the vendored libraries, not under `src/`, and
are abstracted as function parameters over an abstract geometry type `G`
and serialized type `S`.  A parser returning `none` embeds a parse that
fails to produce a geometry (including `lwgeom_parse_wkt` returning
`LW_FAILURE`). -/

/-- `strncasecmp(str, "SRID=", 5) == 0`. -/
def caseInsensitiveSRID (input : List Char) : Bool :=
  match input with
  | a :: b :: c :: d :: e :: _ =>
    a.toLower = 's' && b.toLower = 'r' && c.toLower = 'i' && d.toLower = 'd' &&
      e = '='
  | _ => false

/-- Digit-accumulation loop of C `atoi`. -/
def atoiDigits : List Char → Nat → Nat
  | [], acc => acc
  | c :: rest, acc =>
    if c.isDigit then atoiDigits rest (acc * 10 + (c.toNat - 48)) else acc

/-- C `atoi`: skip leading whitespace, then an optional sign, then digits. -/
def atoi (s : List Char) : Int :=
  let s1 := s.dropWhile (fun c =>
    c = ' ' || c = '\t' || c = '\n' || c = '\x0b' || c = '\x0c' || c = '\r')
  match s1 with
  | '-' :: rest => -(atoiDigits rest 0 : Int)
  | '+' :: rest => (atoiDigits rest 0 : Int)
  | _ => (atoiDigits s1 0 : Int)

/-- The `SRID=` header handling at the top of `LWGEOM_in`: when the input
starts with a case-insensitive `SRID=`, scan forward to the first `;`; when
the character after it is `0`, the remainder after the `;` becomes the
string to parse and the SRID is `atoi` of the text after `SRID=`.  In every
other case the whole input is the string to parse with SRID `0`.  (When the
header is present but the input holds no `;`, the C scan runs past the end
of the string; the claim theorems assume a `;` is present in that case.) -/
def stripSRID (input : List Char) : List Char × Int :=
  if caseInsensitiveSRID input then
    match firstIdxBy (fun c => c = ';') input with
    | some i =>
      if input.get? (i + 1) = some '0' then
        (input.drop (i + 1), atoi (input.drop 5))
      else (input, 0)
    | none => (input, 0)
  else (input, 0)

/-- `if (lwgeom_needs_bbox(lwgeom)) lwgeom_add_bbox(lwgeom);`. -/
def bboxStep {G : Type} (needsBbox : G → Bool) (addBbox : G → G) (g : G) : G :=
  if needsBbox g then addBbox g else g

/-- `LWGEOM_in`: dispatch on the first character of the (possibly
SRID-stripped) string — `0` to the hex-WKB parser (applying the parsed SRID
to the geometry only when it is nonzero, then the bbox step), `{` to the
GeoJSON parser (no bbox step), anything else to the WKT parser (with the
bbox step); `none` wherever the C function returns NULL. -/
def LWGEOM_in {G S : Type} (wkbParse geojsonParse wktParse : List Char → Option G)
    (setSrid : G → Int → G) (needsBbox : G → Bool) (addBbox : G → G)
    (serialize : G → S) (input : List Char) : Option S :=
  let sp := stripSRID input
  let str := sp.1
  let srid := sp.2
  if str.get? 0 = some '0' then
    match wkbParse str with
    | none => none
    | some lwgeom =>
      some (serialize (bboxStep needsBbox addBbox
        (if srid ≠ 0 then setSrid lwgeom srid else lwgeom)))
  else if str.get? 0 = some '{' then
    match geojsonParse str with
    | none => none
    | some lwgeom => some (serialize lwgeom)
  else
    match wktParse str with
    | none => none
    | some lwgeom => some (serialize (bboxStep needsBbox addBbox lwgeom))

/-- The parser `LWGEOM_in` routes the input to, applied to the stripped
string: the claim's notion of "the chosen parser". -/
def chosenParser {G : Type} (wkbParse geojsonParse wktParse : List Char → Option G)
    (input : List Char) : Option G :=
  let str := (stripSRID input).1
  if str.get? 0 = some '0' then wkbParse str
  else if str.get? 0 = some '{' then geojsonParse str
  else wktParse str

/-- Concrete instantiation for the C3 counterexample: the geometry is just
its SRID (`G = S = Int`), `lwgeom_set_srid` replaces it, the hex-WKB parser
yields a geometry with SRID 4326 and no bbox is needed. -/
def cexWkbParse : List Char → Option Int := fun _ => some 4326

def cexSetSrid : Int → Int → Int := fun _ s => s

def cexInput : List Char := ['S', 'R', 'I', 'D', '=', '0', ';', '0', '0']

/-! ### `BaseReader` (file_reader.cpp)

The reader state embeds the C++ members: `cnt` is `m_cnt_read`, `rpos` and
`rend` are the offsets `m_read_pos - m_buffer` and `m_read_end - m_buffer`,
and `data` is the contents of the `m_buffer` array.  The virtual `do_read`
(`FileReader::do_read` reads from a database file handle, outside this
model) is embedded as a script of responses consumed one per call: either
an error (a negative return value) or a chunk of bytes (empty = return 0,
end of file).  `bufSz` stands for the compile-time constant `buf_size`
declared in `file_reader.h` (not vendored under `src/`). -/

inductive RdRes where
  | err
  | bytes (bs : List Char)
deriving DecidableEq

structure Reader where
  script : List RdRes
  cnt : Nat
  rpos : Nat
  rend : Nat
  data : List Char
deriving DecidableEq

/-- One `do_read(buffer, size)` call: consume the next script response; a
byte response delivers at most `size` bytes. -/
def doReadM (r : Reader) (size : Nat) : RdRes × Reader :=
  match r.script with
  | [] => (RdRes.bytes [], r)
  | RdRes.err :: rest => (RdRes.err, { r with script := rest })
  | RdRes.bytes bs :: rest => (RdRes.bytes (bs.take size), { r with script := rest })

/-- `BaseReader::tell()` (file_reader.cpp lines 124-127):
`m_cnt_read - (m_read_end - m_read_pos)`. -/
def tellR (r : Reader) : Nat :=
  r.cnt - (r.rend - r.rpos)

/-- `BaseReader::open()` (lines 18-23): reset the pointers to `m_buffer +
buf_size` and `m_cnt_read` to 0 (`do_open` touches only the file handle). -/
def openR (bufSz : Nat) (r : Reader) : Reader :=
  { r with rpos := bufSz, rend := bufSz, cnt := 0 }

/-- `BaseReader::close()` (lines 25-30): same member resets as `open`. -/
def closeR (bufSz : Nat) (r : Reader) : Reader :=
  { r with rpos := bufSz, rend := bufSz, cnt := 0 }

/-- `BaseReader::underflow()` (lines 96-108): when the buffer is exhausted,
`do_read` refills it from the start; a non-positive return leaves the
pointers unchanged and reports failure. -/
def underflowR (bufSz : Nat) (r : Reader) : Bool × Reader :=
  if r.rpos ≥ r.rend then
    match doReadM r bufSz with
    | (RdRes.err, r1) => (false, r1)
    | (RdRes.bytes bs, r1) =>
      if bs.length = 0 then (false, r1)
      else
        (true,
          { r1 with
            cnt := r1.cnt + bs.length
            rend := bs.length
            rpos := 0
            data := bs ++ r1.data.drop bs.length })
  else (true, r)

/-- `BaseReader::next_char(char&)` (lines 51-57). -/
def next_charR (bufSz : Nat) (r : Reader) : Option Char × Reader :=
  match underflowR bufSz r with
  | (false, r1) => (none, r1)
  | (true, r1) => (some (r1.data.getD r1.rpos ' '), { r1 with rpos := r1.rpos + 1 })

/-- `BaseReader::check_next_char(char)` (lines 67-75): the position advances
only when the peeked character matches. -/
def check_next_charR (bufSz : Nat) (c : Char) (r : Reader) : Bool × Reader :=
  match underflowR bufSz r with
  | (false, r1) => (false, r1)
  | (true, r1) =>
    if r1.data.getD r1.rpos ' ' = c then (true, { r1 with rpos := r1.rpos + 1 })
    else (false, r1)

/-- `BaseReader::read(char*, size_t)` (lines 77-94): copy what the buffer
holds, then `do_read` the rest straight into the caller's buffer; a
negative `do_read` makes the function return 0 even though the buffered
bytes were already copied out and the position advanced.  Result:
(return value, bytes stored in the caller's buffer, new state). -/
def readR (r : Reader) (size : Nat) : Nat × List Char × Reader :=
  let inBuffer := r.rend - r.rpos
  let fromBuffer := min size inBuffer
  let outB := (r.data.drop r.rpos).take fromBuffer
  let r1 := { r with rpos := r.rpos + fromBuffer }
  match doReadM r1 (size - fromBuffer) with
  | (RdRes.err, r2) => (0, outB, r2)
  | (RdRes.bytes bs, r2) =>
    (fromBuffer + bs.length, outB ++ bs, { r2 with cnt := r2.cnt + bs.length })

/-- The matching loop of `BaseReader::skip_prefix` (lines 36-41): on a
mismatch or on running out of buffered data the read position is set to
`m_buffer` (offset 0).  Result: (final offset, whole prefix consumed). -/
def skipLoop (data : List Char) (rend : Nat) : List Char → Nat → Nat × Bool
  | [], pos => (pos, true)
  | c :: cs, pos =>
    if pos ≥ rend then (0, false)
    else if data.getD pos ' ' = c then skipLoop data rend cs (pos + 1)
    else (0, false)

/-- `BaseReader::skip_prefix` (lines 32-42): underflow, then match the
prefix against the buffered bytes only.  Result: (new state, whole prefix
consumed). -/
def skip_prefixR (bufSz : Nat) (r : Reader) (pre : List Char) : Reader × Bool :=
  match underflowR bufSz r with
  | (false, r1) => (r1, pre.isEmpty)
  | (true, r1) =>
    let lp := skipLoop r1.data r1.rend pre r1.rpos
    ({ r1 with rpos := lp.1 }, lp.2)

end GeoVerify

namespace GeoVerify

/-! ### Theorems for claims C1 and C2 -/

/-- C1: for every pair of locations (with `BOUNDARY` first replaced by
`INTERIOR`) and every overlay opcode, `OverlayOp::isResultOfOp` returns true
exactly by the boolean set rule: intersection iff both `INTERIOR`, union iff
at least one `INTERIOR`, difference iff the first is `INTERIOR` and the
second is not, symmetric difference iff exactly one is `INTERIOR`, and false
for any other opcode value. -/
theorem isResultOfOp_boolean_set_rule (loc0 loc1 : Location) (opCode : Int) :
    isResultOfOp loc0 loc1 opCode = true ↔
      ((opCode = opINTERSECTION ∧
          locNorm loc0 = Location.INTERIOR ∧ locNorm loc1 = Location.INTERIOR) ∨
        (opCode = opUNION ∧
          (locNorm loc0 = Location.INTERIOR ∨ locNorm loc1 = Location.INTERIOR)) ∨
        (opCode = opDIFFERENCE ∧
          locNorm loc0 = Location.INTERIOR ∧ locNorm loc1 ≠ Location.INTERIOR) ∨
        (opCode = opSYMDIFFERENCE ∧
          ((locNorm loc0 = Location.INTERIOR ∧ locNorm loc1 ≠ Location.INTERIOR) ∨
            (locNorm loc0 ≠ Location.INTERIOR ∧ locNorm loc1 = Location.INTERIOR)))) := by
  unfold isResultOfOp
  have h12 : opINTERSECTION ≠ opUNION := by decide
  have h13 : opINTERSECTION ≠ opDIFFERENCE := by decide
  have h14 : opINTERSECTION ≠ opSYMDIFFERENCE := by decide
  have h23 : opUNION ≠ opDIFFERENCE := by decide
  have h24 : opUNION ≠ opSYMDIFFERENCE := by decide
  have h34 : opDIFFERENCE ≠ opSYMDIFFERENCE := by decide
  split_ifs with h1 h2 h3 h4 <;>
    (cases loc0 <;> cases loc1 <;> simp_all [locNorm])

/-- C2: `OverlayOp::resultDimension` returns the minimum of the two input
dimensions for intersection, the maximum for union and symmetric difference,
and the first input's dimension for difference; and
`OverlayOp::createEmptyResult` creates an empty `Point` when that dimension
is `P`, an empty `LineString` when it is `L`, an empty `Polygon` when it is
`A`, and an empty `GeometryCollection` otherwise. -/
theorem resultDimension_createEmptyResult_rule (dim0 dim1 : Int) :
    resultDimension opINTERSECTION dim0 dim1 = min dim0 dim1 ∧
      resultDimension opUNION dim0 dim1 = max dim0 dim1 ∧
      resultDimension opSYMDIFFERENCE dim0 dim1 = max dim0 dim1 ∧
      resultDimension opDIFFERENCE dim0 dim1 = dim0 ∧
      ∀ opCode : Int,
        (createEmptyResult opCode dim0 dim1 = EmptyKind.point ↔
          resultDimension opCode dim0 dim1 = dimP) ∧
        (createEmptyResult opCode dim0 dim1 = EmptyKind.lineString ↔
          resultDimension opCode dim0 dim1 = dimL) ∧
        (createEmptyResult opCode dim0 dim1 = EmptyKind.polygon ↔
          resultDimension opCode dim0 dim1 = dimA) ∧
        (createEmptyResult opCode dim0 dim1 = EmptyKind.geometryCollection ↔
          (resultDimension opCode dim0 dim1 ≠ dimP ∧
            resultDimension opCode dim0 dim1 ≠ dimL ∧
            resultDimension opCode dim0 dim1 ≠ dimA)) := by
  refine ⟨?_, ?_, ?_, ?_, ?_⟩
  · simp [resultDimension]
  · simp [resultDimension, opUNION, opINTERSECTION]
  · simp [resultDimension, opSYMDIFFERENCE, opINTERSECTION, opUNION, opDIFFERENCE]
  · simp [resultDimension, opDIFFERENCE, opINTERSECTION, opUNION]
  · intro opCode
    simp only [createEmptyResult]
    split_ifs with h1 h2 h3 <;> simp_all [dimP, dimL, dimA]

/-! ### Theorems for claims C5 and C6 -/

lemma map_const_replicate {α β : Type} (xs : List α) (k : β) :
    xs.map (fun _ => k) = List.replicate xs.length k := by
  induction xs with
  | nil => rfl
  | cons x xs ih => simp [List.replicate, ih]

lemma resultDimension_mem_range (opCode dim0 dim1 : Int) (h0l : -1 ≤ dim0)
    (h0u : dim0 ≤ 2) (h1l : -1 ≤ dim1) (h1u : dim1 ≤ 2) :
    -1 ≤ resultDimension opCode dim0 dim1 ∧ resultDimension opCode dim0 dim1 ≤ 2 := by
  simp only [resultDimension, dimFalse]
  split_ifs <;> omega

/-- C5: in `OverlayOp::computeGeometry` the component geometries of a
non-empty overlay result are always arranged with all result points first,
then all result lines, then all result polygons (order P, L, A); and when
all three component lists are empty the result is the empty geometry of
`createEmptyResult`, whose dimension is the operation's result dimension for
the two input geometries (for input dimensions in the `DimensionType`
range `False..A`). -/
theorem computeGeometry_order_and_empty {P L A : Type} (pts : List P)
    (lns : List L) (pgs : List A) (opCode dim0 dim1 : Int) :
    (∀ gs, computeGeometry pts lns pgs opCode dim0 dim1 = OverlayResult.built gs →
        gs.map kindOf =
          List.replicate pts.length PLAKind.pointK ++
            List.replicate lns.length PLAKind.lineK ++
            List.replicate pgs.length PLAKind.polyK) ∧
      (pts = [] → lns = [] → pgs = [] →
        computeGeometry pts lns pgs opCode dim0 dim1 =
            OverlayResult.emptyRes (createEmptyResult opCode dim0 dim1) ∧
          (-1 ≤ dim0 → dim0 ≤ 2 → -1 ≤ dim1 → dim1 ≤ 2 →
            emptyGeomDim (createEmptyResult opCode dim0 dim1) =
              resultDimension opCode dim0 dim1)) := by
  constructor
  · intro gs hgs
    have hg2 : gs = pts.map Sum.inl ++ lns.map (fun l => Sum.inr (Sum.inl l)) ++
        pgs.map (fun a => Sum.inr (Sum.inr a)) := by
      simp only [computeGeometry] at hgs
      split_ifs at hgs <;> cases hgs <;> rfl
    subst hg2
    simp only [List.map_append, List.map_map]
    show pts.map (fun _ => PLAKind.pointK) ++ lns.map (fun _ => PLAKind.lineK) ++
        pgs.map (fun _ => PLAKind.polyK) = _
    rw [map_const_replicate, map_const_replicate, map_const_replicate]
  · intro hp hl hg
    subst hp; subst hl; subst hg
    refine ⟨by simp [computeGeometry], ?_⟩
    intro h0l h0u h1l h1u
    obtain ⟨hlo, hhi⟩ := resultDimension_mem_range opCode dim0 dim1 h0l h0u h1l h1u
    simp only [createEmptyResult]
    split_ifs with h1 h2 h3 <;>
      simp_all [emptyGeomDim, dimP, dimL, dimA, dimFalse] <;> omega

/-- Witness for C5 at concrete inputs. -/
theorem computeGeometry_order_and_empty_witness :
    (List.map kindOf
        (([0] : List Nat).map Sum.inl ++
          ([1] : List Nat).map (fun l => (Sum.inr (Sum.inl l) : Nat ⊕ (Nat ⊕ Nat))) ++
          ([2, 3] : List Nat).map (fun a => Sum.inr (Sum.inr a))) =
      [PLAKind.pointK, PLAKind.lineK, PLAKind.polyK, PLAKind.polyK]) ∧
    (computeGeometry ([] : List Nat) ([] : List Nat) ([] : List Nat)
        opINTERSECTION 0 2 =
      OverlayResult.emptyRes (createEmptyResult opINTERSECTION 0 2)) := by
  constructor
  · exact ((computeGeometry_order_and_empty [0] [1] [2, 3]
      opINTERSECTION 0 2).1 _ rfl).trans (by rfl)
  · exact ((computeGeometry_order_and_empty ([] : List Nat) ([] : List Nat)
      ([] : List Nat) opINTERSECTION 0 2).2 rfl rfl rfl).1

/-- C6: in the edge-noding validation step of `OverlayOp::computeOverlay`,
if `EdgeNodingValidator::checkValid` throws a `TopologyException` the edge
list is cleared and the same exception is re-thrown, so no result geometry
is built from invalidly noded edges; if validation succeeds the pipeline
builds the result from the unchanged edge list. -/
theorem computeOverlayValidation_rethrows {E X R : Type}
    (checkValid : List E → Except X Unit) (buildRest : List E → R)
    (edgeList : List E) :
    (∀ ex, checkValid edgeList = Except.error ex →
        computeOverlayValidation checkValid buildRest edgeList =
          (Except.error ex, ([] : List E))) ∧
      (checkValid edgeList = Except.ok () →
        computeOverlayValidation checkValid buildRest edgeList =
          (Except.ok (buildRest edgeList), edgeList)) := by
  constructor
  · intro ex hex
    simp [computeOverlayValidation, hex]
  · intro hok
    simp [computeOverlayValidation, hok]

/-- Witness for C6 at concrete inputs. -/
theorem computeOverlayValidation_rethrows_witness :
    computeOverlayValidation (fun (_ : List Nat) => Except.error "noding failed")
        (fun es => es.length) [5, 7] =
      (Except.error "noding failed", ([] : List Nat)) :=
  (computeOverlayValidation_rethrows (fun _ => Except.error "noding failed")
    (fun es => es.length) [5, 7]).1 "noding failed" rfl

/-! ### Theorem for claim C4 -/

/-- C4: whenever `geography_tree_distance` returns, it returns `LW_SUCCESS`;
it stores `0.0` in `*distance` exactly when one of the two `CircTreePIP`
point-in-polygon tests reports containment, and otherwise stores the
spatial-tree distance `circ_tree_distance_tree(tree1, tree2, s, tolerance)`;
and `CircTreePIP` can only report containment when the tree'ed input's type
is `POLYGONTYPE` or `MULTIPOLYGONTYPE`. -/
theorem geography_tree_distance_rule {D : Type} (type1 type2 : Nat)
    (o1 o2 : PIPOracles) (zero treeDist : D) (v1 v2 : Int)
    (h1 : CircTreePIP type1 o1 = some v1) (h2 : CircTreePIP type2 o2 = some v2) :
    geography_tree_distance type1 type2 o1 o2 zero treeDist =
        some (LW_SUCCESS, if v1 ≠ 0 ∨ v2 ≠ 0 then zero else treeDist) ∧
      (∀ (t1 t2 : Nat) (p1 p2 : PIPOracles) (r : Int) (d : D),
        geography_tree_distance t1 t2 p1 p2 zero treeDist = some (r, d) →
          r = LW_SUCCESS) ∧
      (∀ (t : Nat) (p : PIPOracles), t ≠ POLYGONTYPE → t ≠ MULTIPOLYGONTYPE →
        CircTreePIP t p = some LW_FALSE) := by
  refine ⟨?_, ?_, ?_⟩
  · rw [geography_tree_distance, h1]
    by_cases hv1 : v1 ≠ 0
    · simp [hv1]
    · rw [h2]
      by_cases hv2 : v2 ≠ 0 <;> simp_all
  · intro t1 t2 p1 p2 r d hr
    rw [geography_tree_distance] at hr
    rcases hc1 : CircTreePIP t1 p1 with _ | w1 <;> rw [hc1] at hr
    · cases hr
    · by_cases hw1 : w1 ≠ 0
      · simp [hw1] at hr
        exact hr.1.symm
      · simp only [hw1, if_neg, ite_false] at hr
        rcases hc2 : CircTreePIP t2 p2 with _ | w2 <;> rw [hc2] at hr
        · simp at hr
        · by_cases hw2 : w2 ≠ 0 <;> simp [hw2] at hr <;> exact hr.1.symm
  · intro t p ht1 ht2
    rw [CircTreePIP, if_neg]
    simp [ht1, ht2]

/-- Witness for C4 at concrete inputs: a polygon whose point-in-polygon test
reports containment against a non-polygon, so the distance is `0.0`. -/
theorem geography_tree_distance_rule_witness :
    geography_tree_distance (D := Int) POLYGONTYPE 2
        ⟨true, true, true, LW_TRUE⟩ ⟨true, true, true, LW_FALSE⟩ 0 42 =
      some (LW_SUCCESS, if LW_TRUE ≠ 0 ∨ LW_FALSE ≠ 0 then (0 : Int) else 42) :=
  (geography_tree_distance_rule POLYGONTYPE 2
    ⟨true, true, true, LW_TRUE⟩ ⟨true, true, true, LW_FALSE⟩ 0 42
    LW_TRUE LW_FALSE (by decide) (by decide)).1

/-! ### Theorems for claim C7 -/

lemma firstIdxBy_spec {α : Type} (p : α → Bool) (l : List α) (k : Nat) (d : α)
    (h : firstIdxBy p l = some k) : k < l.length ∧ p (l.getD k d) = true := by
  induction l generalizing k with
  | nil => cases h
  | cons x rest ih =>
    rw [firstIdxBy] at h
    split_ifs at h with hx
    · cases h
      exact ⟨Nat.succ_pos _, hx⟩
    · rcases hrest : firstIdxBy p rest with _ | k'
      · rw [hrest] at h; cases h
      · rw [hrest] at h
        simp only [Option.map_some'] at h
        cases h
        obtain ⟨hlt, hp⟩ := ih k' hrest
        exact ⟨Nat.succ_lt_succ hlt, hp⟩

lemma linkRun_link_true (edges : List OEdge) (i j : Nat) (links : List (Nat × Nat)) :
    linkRun edges i (LinkState.link j true) links =
      (if edges.isEmpty then LinkOutcome.topoException else LinkOutcome.earlyReturn,
        links) := by
  cases edges <;> rfl

lemma linkRun_find_someTrue (edges : List OEdge) (i j : Nat)
    (links : List (Nat × Nat)) :
    linkRun edges i (LinkState.find (some (j, true))) links =
      (if edges.isEmpty then LinkOutcome.normalReturn else LinkOutcome.earlyReturn,
        links) := by
  cases edges <;> rfl

lemma linkRun_link_false_none (edges : List OEdge) (i j : Nat)
    (links : List (Nat × Nat))
    (h : firstIdxBy (fun e => e.outR) edges = none) :
    linkRun edges i (LinkState.link j false) links =
      (LinkOutcome.topoException, links) := by
  induction edges generalizing i with
  | nil => rfl
  | cons e rest ih =>
    rw [firstIdxBy] at h
    split_ifs at h with he
    · rcases hrest : firstIdxBy (fun x => x.outR) rest with _ | m'
      · rw [linkRun, if_neg (by simp [he])]
        exact ih (i + 1) hrest
      · rw [hrest] at h; cases h

lemma linkRun_link_false_some (edges : List OEdge) (i j m : Nat)
    (links : List (Nat × Nat))
    (h : firstIdxBy (fun e => e.outR) edges = some m) :
    linkRun edges i (LinkState.link j false) links =
      (if edges.length = m + 1 then LinkOutcome.normalReturn
        else LinkOutcome.earlyReturn, links ++ [(j, i + m)]) := by
  induction edges generalizing i m links with
  | nil => cases h
  | cons e rest ih =>
    rw [firstIdxBy] at h
    split_ifs at h with he
    · cases h
      rw [linkRun, if_pos he, linkRun_find_someTrue]
      rcases rest with _ | ⟨e2, rest2⟩ <;> simp
    · rcases hrest : firstIdxBy (fun x => x.outR) rest with _ | m'
      · rw [hrest] at h; cases h
      · rw [hrest] at h
        simp only [Option.map_some'] at h
        cases h
        rw [linkRun, if_neg (by simp [he]), ih (i + 1) m' links hrest]
        have h1 : i + 1 + m' = i + (m' + 1) := by omega
        rw [h1]
        by_cases hl : rest.length = m' + 1
        · rw [if_pos hl, if_pos (by simp [List.length_cons, hl])]
        · rw [if_neg hl, if_neg (by simp only [List.length_cons]; omega)]

lemma linkRun_find_none_no_inR (edges : List OEdge) (i : Nat)
    (links : List (Nat × Nat))
    (h : firstIdxBy (fun e => e.inR) edges = none) :
    linkRun edges i (LinkState.find none) links =
      (LinkOutcome.normalReturn, links) := by
  induction edges generalizing i with
  | nil => rfl
  | cons e rest ih =>
    rw [firstIdxBy] at h
    split_ifs at h with he
    · rcases hrest : firstIdxBy (fun x => x.inR) rest with _ | k'
      · rw [linkRun, if_neg (by simp [he])]
        exact ih (i + 1) hrest
      · rw [hrest] at h; cases h

lemma linkRun_find_none_found (edges : List OEdge) (i k : Nat)
    (links : List (Nat × Nat))
    (h : firstIdxBy (fun e => e.inR) edges = some k) :
    linkRun edges i (LinkState.find none) links =
      linkRun (edges.drop (k + 1)) (i + k + 1)
        (LinkState.link (i + k) ((edges.getD k noEdge).inLinked)) links := by
  induction edges generalizing i k with
  | nil => cases h
  | cons e rest ih =>
    rw [firstIdxBy] at h
    split_ifs at h with he
    · cases h
      rw [linkRun, if_pos he]
      rfl

    · rcases hrest : firstIdxBy (fun x => x.inR) rest with _ | k'
      · rw [hrest] at h; cases h
      · rw [hrest] at h
        simp only [Option.map_some'] at h
        cases h
        rw [linkRun, if_neg (by simp [he]), ih (i + 1) k' hrest]
        have h1 : i + (k' + 1) + 1 = i + 1 + k' + 1 := by omega
        have h2 : i + (k' + 1) = i + 1 + k' := by omega
        rw [h1, h2]
        rfl

lemma linkRun_topo_iff (edges : List OEdge) (i : Nat) (links : List (Nat × Nat)) :
    (linkRun edges i (LinkState.find none) links).1 = LinkOutcome.topoException ↔
      throwCondition edges = true := by
  induction edges generalizing i links with
  | nil => simp [linkRun, throwCondition]
  | cons e rest ih =>
    by_cases he : e.inR
    · rw [linkRun, if_pos he, throwCondition, if_pos he]
      by_cases hl : e.inLinked
      · rw [hl, linkRun_link_true, if_pos rfl]
        rcases rest with _ | ⟨e2, rest2⟩ <;> simp
      · rw [show e.inLinked = false from by simp_all, if_neg (by simp)]
        rcases hm : firstIdxBy (fun x => x.outR) rest with _ | m
        · rw [linkRun_link_false_none rest (i + 1) i links hm, hm]
          simp
        · rw [linkRun_link_false_some rest (i + 1) i m links hm, hm]
          split_ifs <;> simp
    · rw [linkRun, if_neg (by simp [he]), throwCondition, if_neg (by simp [he])]
      exact ih (i + 1) links

/-- C7 (amended): `linkResultAreaMaxRingAtNode` scans the out-edges around
the node starting at the edge after the node edge, alternating between
finding an incoming result-area edge and linking it to the next outgoing
result-area edge; when an already-linked incoming result-area edge is found
before the last scan position the call returns early without making any
link; and it throws the `TopologyException` ("no outgoing edge found") if
and only if the scan completes while an incoming result-area edge is still
waiting for an outgoing edge (`throwCondition`). -/
theorem linkResultAreaMaxRingAtNode_rule (edges : List OEdge) :
    (∀ k, firstIdxBy (fun e => e.inR) edges = some k →
        (edges.getD k noEdge).inLinked = true → k + 1 < edges.length →
        linkResultAreaMaxRingAtNode edges = (LinkOutcome.earlyReturn, [])) ∧
      ((linkResultAreaMaxRingAtNode edges).1 = LinkOutcome.topoException ↔
        throwCondition edges = true) := by
  constructor
  · intro k hk hlinked hlt
    rw [linkResultAreaMaxRingAtNode, linkRun_find_none_found edges 0 k [] hk]
    rw [hlinked, linkRun_link_true]
    rw [if_neg]
    simp only [List.isEmpty_iff, List.drop_eq_nil_iff]
    omega
  · rw [linkResultAreaMaxRingAtNode]
    exact linkRun_topo_iff edges 0 []

/-- Witness for C7 at a concrete in-scope star (the last scan element — the
node edge itself — is in the result area): the first incoming result-area
edge (index 0) is already linked and is not at the last scan position, so
the call returns early with no links. -/
theorem linkResultAreaMaxRingAtNode_rule_witness :
    (([⟨false, true, true⟩, ⟨true, false, false⟩] : List OEdge).getD 1
        noEdge).outR = true ∧
      linkResultAreaMaxRingAtNode [⟨false, true, true⟩, ⟨true, false, false⟩] =
        (LinkOutcome.earlyReturn, []) ∧
      ((linkResultAreaMaxRingAtNode
            [⟨false, true, true⟩, ⟨true, false, false⟩]).1 =
          LinkOutcome.topoException ↔
        throwCondition [⟨false, true, true⟩, ⟨true, false, false⟩] = true) :=
  ⟨by decide,
    (linkResultAreaMaxRingAtNode_rule
      [⟨false, true, true⟩, ⟨true, false, false⟩]).1 0 (by decide) (by decide)
      (by decide),
    (linkResultAreaMaxRingAtNode_rule
      [⟨false, true, true⟩, ⟨true, false, false⟩]).2⟩

/-! ### Theorems for claims C8, C9, C10 -/

lemma underflowR_props (bufSz : Nat) (r : Reader)
    (h : r.rend - r.rpos ≤ r.cnt) (h2 : r.rpos < r.rend → r.rend ≤ r.cnt) :
    tellR (underflowR bufSz r).2 = tellR r ∧
      ((underflowR bufSz r).1 = true →
        (underflowR bufSz r).2.rpos < (underflowR bufSz r).2.rend ∧
          (underflowR bufSz r).2.rend ≤ (underflowR bufSz r).2.cnt) := by
  rcases r with ⟨script, cnt, rpos, rend, data⟩
  simp only at h h2
  rw [underflowR]
  split_ifs with hp
  · simp only at hp
    rcases script with _ | ⟨res, rest⟩
    · simp [doReadM, tellR]
    · rcases res with _ | bs
      · simp [doReadM, tellR]
      · simp only [doReadM]
        by_cases hb : (bs.take bufSz).length = 0
        · rw [if_pos hb]
          simp [tellR]
        · rw [if_neg hb]
          constructor
          · show cnt + (bs.take bufSz).length - ((bs.take bufSz).length - 0) =
              cnt - (rend - rpos)
            omega
          · exact fun _ => ⟨Nat.pos_of_ne_zero hb, Nat.le_add_left _ _⟩
  · simp only at hp
    refine ⟨rfl, fun _ => ?_⟩
    exact show rpos < rend ∧ rend ≤ cnt from ⟨by omega, h2 (by omega)⟩

lemma underflowR_pair (bufSz : Nat) (r : Reader) (ok : Bool) (r1 : Reader)
    (h : r.rend - r.rpos ≤ r.cnt) (h2 : r.rpos < r.rend → r.rend ≤ r.cnt)
    (hu : underflowR bufSz r = (ok, r1)) :
    tellR r1 = tellR r ∧
      (ok = true → r1.rpos < r1.rend ∧ r1.rend ≤ r1.cnt) := by
  have hp := underflowR_props bufSz r h h2
  rw [hu] at hp
  exact hp

/-- C8: `BaseReader::tell` behaves as the count of bytes consumed by the
caller: `m_cnt_read` minus the bytes still unread in the buffer; it is 0
immediately after `open()` or `close()`, grows by 1 on a successful
`next_char` or a matching `check_next_char`, and grows by `n` on a `read`
that delivers `n` bytes without an underlying read error (the well-formed
state hypotheses hold of every state the reader reaches). -/
theorem baseReader_tell_rule (bufSz : Nat) (r : Reader) (c : Char)
    (h : r.rend - r.rpos ≤ r.cnt) (h2 : r.rpos < r.rend → r.rend ≤ r.cnt) :
    tellR (openR bufSz r) = 0 ∧
      tellR (closeR bufSz r) = 0 ∧
      (∀ ch r2, next_charR bufSz r = (some ch, r2) → tellR r2 = tellR r + 1) ∧
      ((check_next_charR bufSz c r).1 = true →
        tellR (check_next_charR bufSz c r).2 = tellR r + 1) ∧
      (∀ size, r.rend ≤ r.data.length → r.script.head? ≠ some RdRes.err →
        tellR (readR r size).2.2 = tellR r + (readR r size).1 ∧
          (readR r size).2.1.length = (readR r size).1) := by
  refine ⟨by simp [tellR, openR], by simp [tellR, closeR], ?_, ?_, ?_⟩
  · intro ch r2 hnc
    rw [next_charR] at hnc
    rcases hu : underflowR bufSz r with ⟨ok, r1⟩
    obtain ⟨htell, hok⟩ := underflowR_pair bufSz r ok r1 h h2 hu
    rw [hu] at hnc
    cases ok
    · simp at hnc
    · obtain ⟨hlt, hle⟩ := hok rfl
      have hnc2 : (some (r1.data.getD r1.rpos ' '),
          { r1 with rpos := r1.rpos + 1 }) = (some ch, r2) := hnc
      have hr2 : r2 = { r1 with rpos := r1.rpos + 1 } := by
        cases hnc2
        rfl
      subst hr2
      rw [← htell]
      show r1.cnt - (r1.rend - (r1.rpos + 1)) = r1.cnt - (r1.rend - r1.rpos) + 1
      omega
  · intro hcm
    rw [check_next_charR] at hcm ⊢
    rcases hu : underflowR bufSz r with ⟨ok, r1⟩
    obtain ⟨htell, hok⟩ := underflowR_pair bufSz r ok r1 h h2 hu
    rw [hu] at hcm
    cases ok
    · simp at hcm
    · obtain ⟨hlt, hle⟩ := hok rfl
      have hcm2 : (if r1.data.getD r1.rpos ' ' = c then
          (true, { r1 with rpos := r1.rpos + 1 }) else (false, r1)).1 = true := hcm
      show tellR (if r1.data.getD r1.rpos ' ' = c then
          (true, { r1 with rpos := r1.rpos + 1 }) else (false, r1)).2 = tellR r + 1
      split_ifs at hcm2 ⊢ with hc
      rw [← htell]
      show r1.cnt - (r1.rend - (r1.rpos + 1)) = r1.cnt - (r1.rend - r1.rpos) + 1
      omega
  · intro size hdata herr
    rw [readR]
    rcases hs : r.script with _ | ⟨res, rest⟩
    · simp only [doReadM, hs, tellR, List.length_append, List.length_take,
        List.length_drop, List.length_nil]
      constructor
      · omega
      · omega
    · rcases res with _ | bs
      · rw [hs] at herr
        simp at herr
      · simp only [doReadM, hs, tellR, List.length_append, List.length_take,
          List.length_drop]
        constructor
        · omega
        · omega

/-- Witness reader state for C8: fresh after `open` with one 2-byte chunk
available. -/
def rExC8 : Reader := ⟨[RdRes.bytes ['a', 'b']], 0, 4, 4, ['x', 'x', 'x', 'x']⟩

/-- Witness for C8 at a concrete state: `next_char` consumes one byte and
`tellR` grows from 0 to 1. -/
theorem baseReader_tell_rule_witness :
    tellR (openR 4 rExC8) = 0 ∧
      tellR (next_charR 4 rExC8).2 = tellR rExC8 + 1 :=
  ⟨(baseReader_tell_rule 4 rExC8 'a' (by decide) (by decide)).1,
    (baseReader_tell_rule 4 rExC8 'a' (by decide) (by decide)).2.2.1
      'a' (next_charR 4 rExC8).2 (by rfl)⟩

/-- C9: when the underlying `do_read` inside `BaseReader::read` reports an
error (a negative return value), `read` returns 0 even though it already
copied the buffered bytes into the caller's output buffer and advanced the
read position past them — so a return value of 0 does not imply the
caller's buffer and the reader position are unchanged. -/
theorem read_error_partial_effects (r : Reader) (size : Nat)
    (hpos : r.rpos < r.rend) (hsize : 0 < size)
    (herr : r.script.head? = some RdRes.err)
    (hdata : r.rend ≤ r.data.length) :
    (readR r size).1 = 0 ∧
      (readR r size).2.1.length = min size (r.rend - r.rpos) ∧
      0 < min size (r.rend - r.rpos) ∧
      (readR r size).2.2.rpos = r.rpos + min size (r.rend - r.rpos) := by
  obtain ⟨rest, hs⟩ : ∃ rest, r.script = RdRes.err :: rest := by
    rcases hsc : r.script with _ | ⟨res, rest⟩
    · rw [hsc] at herr; cases herr
    · rw [hsc] at herr
      simp only [List.head?] at herr
      cases herr
      exact ⟨rest, rfl⟩
  rw [readR]
  simp only [doReadM, hs, List.length_take, List.length_drop]
  refine ⟨by trivial, by omega, by omega, by trivial⟩

/-- Witness reader state for C9: two buffered bytes, then a read error. -/
def rExC9 : Reader := ⟨[RdRes.err], 2, 0, 2, ['a', 'b']⟩

/-- Witness for C9 at a concrete state: `read(buf, 3)` returns 0 yet has
stored 2 bytes and advanced the position by 2. -/
theorem read_error_partial_effects_witness :
    (readR rExC9 3).1 = 0 ∧
      (readR rExC9 3).2.1.length = min 3 (rExC9.rend - rExC9.rpos) ∧
      0 < min 3 (rExC9.rend - rExC9.rpos) ∧
      (readR rExC9 3).2.2.rpos = rExC9.rpos + min 3 (rExC9.rend - rExC9.rpos) :=
  read_error_partial_effects rExC9 3 (by decide) (by decide) (by decide)
    (by decide)

lemma skipLoop_fail_pos (data : List Char) (rend : Nat) (pre : List Char)
    (pos : Nat) (h : (skipLoop data rend pre pos).2 = false) :
    (skipLoop data rend pre pos).1 = 0 := by
  induction pre generalizing pos with
  | nil => cases h
  | cons c cs ih =>
    rw [skipLoop] at h ⊢
    split_ifs at h ⊢ with h1 h2
    · rfl
    · exact ih (pos + 1) h
    · rfl

lemma skipLoop_overrun (data : List Char) (rend : Nat) (pre : List Char)
    (pos : Nat) (h : rend - pos < pre.length) :
    (skipLoop data rend pre pos).2 = false := by
  induction pre generalizing pos with
  | nil => simp at h
  | cons c cs ih =>
    rw [skipLoop]
    split_ifs with h1 h2
    · rfl
    · exact ih (pos + 1) (by simp only [List.length_cons] at h; omega)
    · rfl

/-- C10: when `skip_prefix` fails to consume its whole prefix (a character
mismatch or the buffered data running out mid-prefix), it sets the read
position to the start of the internal buffer (offset 0) rather than back to
where the match began; the pre-call stream position (`tellR`) is restored
exactly when the match started at the beginning of the buffer; and a prefix
longer than the currently buffered bytes always fails, because the buffer
is not refilled mid-match. -/
theorem skip_prefix_fail_rule (bufSz : Nat) (r : Reader) (pre : List Char)
    (h : r.rend - r.rpos ≤ r.cnt) (h2 : r.rpos < r.rend → r.rend ≤ r.cnt) :
    ((underflowR bufSz r).1 = true →
      (skipLoop (underflowR bufSz r).2.data (underflowR bufSz r).2.rend pre
          (underflowR bufSz r).2.rpos).2 = false →
        (skip_prefixR bufSz r pre).1.rpos = 0 ∧
          (tellR (skip_prefixR bufSz r pre).1 = tellR r ↔
            (underflowR bufSz r).2.rpos = 0)) ∧
      ((underflowR bufSz r).1 = true →
        (underflowR bufSz r).2.rend - (underflowR bufSz r).2.rpos < pre.length →
        (skipLoop (underflowR bufSz r).2.data (underflowR bufSz r).2.rend pre
            (underflowR bufSz r).2.rpos).2 = false) := by
  constructor
  · intro hu hfail
    rcases hur : underflowR bufSz r with ⟨ok, r1⟩
    obtain ⟨htell, hok⟩ := underflowR_pair bufSz r ok r1 h h2 hur
    rw [hur] at hu hfail
    rw [skip_prefixR, hur]
    cases ok
    · cases hu
    · obtain ⟨hlt, hle⟩ := hok rfl
      have hfail2 : (skipLoop r1.data r1.rend pre r1.rpos).2 = false := hfail
      have hz := skipLoop_fail_pos r1.data r1.rend pre r1.rpos hfail2
      constructor
      · exact hz
      · show tellR { r1 with rpos := (skipLoop r1.data r1.rend pre r1.rpos).1 } =
            tellR r ↔ r1.rpos = 0
        rw [hz, ← htell]
        show r1.cnt - (r1.rend - 0) = r1.cnt - (r1.rend - r1.rpos) ↔ r1.rpos = 0
        omega
  · intro hu hlen
    exact skipLoop_overrun _ _ _ _ hlen

/-- Witness reader state for C10: three buffered bytes with the position in
the middle of the buffer. -/
def rExC10 : Reader := ⟨[], 3, 1, 3, ['a', 'b', 'c']⟩

/-- Witness for C10 at a concrete state: matching `bz` from offset 1 fails
on the second character, the position resets to the buffer start (not to
offset 1), and `tellR` is not restored; a 3-character prefix against 2
buffered bytes fails. -/
theorem skip_prefix_fail_rule_witness :
    ((skip_prefixR 4 rExC10 ['b', 'z']).1.rpos = 0 ∧
      (tellR (skip_prefixR 4 rExC10 ['b', 'z']).1 = tellR rExC10 ↔
        (underflowR 4 rExC10).2.rpos = 0)) ∧
      (skipLoop (underflowR 4 rExC10).2.data (underflowR 4 rExC10).2.rend
          ['b', 'c', 'd'] (underflowR 4 rExC10).2.rpos).2 = false :=
  ⟨(skip_prefix_fail_rule 4 rExC10 ['b', 'z'] (by decide) (by decide)).1
      (by decide) (by decide),
    (skip_prefix_fail_rule 4 rExC10 ['b', 'c', 'd'] (by decide) (by decide)).2
      (by decide) (by decide)⟩

/-! ### Theorems for claim C3 -/

/-- C3 (amended): `LWGEOM_in` decides the input format by the first
character of the (optionally SRID=-prefixed) string: after stripping an
`SRID=<n>;` header that is followed by `0`, a string starting with `0` is
parsed as hex-encoded WKB (with the parsed SRID applied to the geometry
when it is nonzero), a string starting with `{` is parsed as GeoJSON, and
any other string is parsed as WKT; whenever the chosen parser fails to
produce a geometry, `LWGEOM_in` returns NULL. -/
theorem LWGEOM_in_routing {G S : Type}
    (wkbParse geojsonParse wktParse : List Char → Option G)
    (setSrid : G → Int → G) (needsBbox : G → Bool) (addBbox : G → G)
    (serialize : G → S) (input : List Char) :
    (chosenParser wkbParse geojsonParse wktParse input = none →
        LWGEOM_in wkbParse geojsonParse wktParse setSrid needsBbox addBbox
          serialize input = none) ∧
      (∀ g, (stripSRID input).1.get? 0 = some '0' →
        wkbParse (stripSRID input).1 = some g →
        LWGEOM_in wkbParse geojsonParse wktParse setSrid needsBbox addBbox
            serialize input =
          some (serialize (bboxStep needsBbox addBbox
            (if (stripSRID input).2 ≠ 0 then setSrid g (stripSRID input).2
              else g)))) ∧
      (∀ g, (stripSRID input).1.get? 0 ≠ some '0' →
        (stripSRID input).1.get? 0 = some '{' →
        geojsonParse (stripSRID input).1 = some g →
        LWGEOM_in wkbParse geojsonParse wktParse setSrid needsBbox addBbox
            serialize input = some (serialize g)) ∧
      (∀ g, (stripSRID input).1.get? 0 ≠ some '0' →
        (stripSRID input).1.get? 0 ≠ some '{' →
        wktParse (stripSRID input).1 = some g →
        LWGEOM_in wkbParse geojsonParse wktParse setSrid needsBbox addBbox
            serialize input = some (serialize (bboxStep needsBbox addBbox g))) := by
  refine ⟨?_, ?_, ?_, ?_⟩
  · intro hnone
    rw [chosenParser] at hnone
    rw [LWGEOM_in]
    split_ifs at hnone ⊢ with h0 hb <;> simp only [hnone]
  · intro g h0 hg
    rw [LWGEOM_in]
    simp only [h0, if_pos, hg]
  · intro g h0 hb hg
    rw [LWGEOM_in]
    rw [if_neg h0, if_pos hb]
    simp only [hg]
  · intro g h0 hb hg
    rw [LWGEOM_in]
    rw [if_neg h0, if_neg hb]
    simp only [hg]

/-- Witness for C3 at concrete inputs: a plain hex-WKB string `01` goes to
the WKB parser. -/
theorem LWGEOM_in_routing_witness :
    LWGEOM_in (G := Int) (S := Int) (fun _ => some 1) (fun _ => some 2)
        (fun _ => some 3) (fun g _ => g) (fun _ => false) id id ['0', '1'] =
      some (bboxStep (fun _ => false) id
        (if (stripSRID ['0', '1']).2 ≠ 0 then 1 else (1 : Int))) :=
  ((LWGEOM_in_routing (G := Int) (S := Int) (fun _ => some 1) (fun _ => some 2)
      (fun _ => some 3) (fun g _ => g) (fun _ => false) id id ['0', '1']).2.1 1
    (by decide) rfl).trans rfl

/-- Counterexample to C3 as stated: for the input `SRID=0;00` the SRID
header is stripped (the parsed SRID is `0`) and the rest is routed to the
hex-WKB parser, but the parsed SRID is NOT applied to the geometry: with a
WKB parser producing a geometry carrying SRID 4326 and `lwgeom_set_srid`
embedded as replacement of that value, the result keeps 4326 where the
claim requires the parsed SRID `0` to have been applied. -/
theorem LWGEOM_in_counterexample :
    caseInsensitiveSRID cexInput = true ∧
      (stripSRID cexInput).2 = 0 ∧
      (stripSRID cexInput).1.get? 0 = some '0' ∧
      LWGEOM_in cexWkbParse (fun _ => none) (fun _ => none) cexSetSrid
          (fun _ => false) id id cexInput = some 4326 ∧
      cexSetSrid 4326 (stripSRID cexInput).2 = 0 ∧
      (4326 : Int) ≠ 0 := by
  refine ⟨by decide, by decide, by decide, ?_, by decide, by decide⟩
  rfl

/-- Counterexample to C7 as stated, at an in-scope star: the node edge (the
last scan element) is in the result area (`outR = true`), and its own sym —
the star's only incoming result-area edge — is already linked.  The scan
finds that already-linked incoming edge at the last position, yet the call
does not return early without changes: it completes the scan in
`STATE_LINK_OUTGOING` and throws the `TopologyException`. -/
theorem linkResultAreaMaxRingAtNode_counterexample :
    (([⟨false, false, false⟩, ⟨true, true, true⟩] : List OEdge).getD 1
        noEdge).outR = true ∧
      firstIdxBy (fun e => e.inR)
        ([⟨false, false, false⟩, ⟨true, true, true⟩] : List OEdge) = some 1 ∧
      (([⟨false, false, false⟩, ⟨true, true, true⟩] : List OEdge).getD 1
          noEdge).inLinked = true ∧
      linkResultAreaMaxRingAtNode [⟨false, false, false⟩, ⟨true, true, true⟩] =
        (LinkOutcome.topoException, []) ∧
      LinkOutcome.topoException ≠ LinkOutcome.earlyReturn := by
  decide

end GeoVerify
